import Mathlib

/-!
Verification of the audio_prototype pipeline (Rust sources in src/).

The development shallowly embeds the parts of the program that the
checked properties are about:

* `StereoSample` and the bounded ring buffer `ArrayQueue` model
  `stream.rs` (`StereoSample`, `crossbeam::queue::ArrayQueue` used
  through the `AudioQueue` alias), with `f32` amplitudes idealised as
  exact rationals.
* `Synthesizer` models `synthesizer.rs` (the 8-voice variant with
  `fake_delay`); `Generator.Synthesizer` models the private
  `Synthesizer` of `generator.rs` (single voice, backpressure loop).
* The transcendental parts of `f32` arithmetic (`sin`, `PI`) are kept
  abstract in a `FloatOracle` parameter: none of the checked
  properties depends on the waveform values themselves.
* `bridgeStep` models one completed step of the `iced` subscription
  state machine of `subscription.rs`; `audioThreadDispatch` and
  `stream_setup_for` model its control-loop dispatch and the sample
  format negotiation of `stream.rs`.
-/

set_option autoImplicit false

/-- Models `StereoSample` of stream.rs: a pair of `f32` amplitudes,
idealised as rationals. `#[derive(Default)]` yields `(0.0, 0.0)`. -/
structure StereoSample where
  left : ℚ
  right : ℚ
deriving DecidableEq, Repr

/-- The derived `Default` value of `StereoSample`: silence. -/
def StereoSample.default : StereoSample := { left := 0, right := 0 }

/-- Models `crossbeam::queue::ArrayQueue<T>`: a bounded FIFO with a
fixed capacity. `data` lists the live elements, oldest first. -/
structure ArrayQueue (α : Type) where
  capacity : Nat
  data : List α
deriving DecidableEq, Repr

/-- Models `ArrayQueue::new(cap)`: an empty queue of the given capacity. -/
def ArrayQueue.new {α : Type} (cap : Nat) : ArrayQueue α :=
  { capacity := cap, data := [] }

/-- Models `ArrayQueue::force_push`: if the queue is full the oldest
element is evicted, then the new element is appended; never blocks or
fails (the displaced element, which the program discards, is dropped). -/
def ArrayQueue.force_push {α : Type} (q : ArrayQueue α) (x : α) : ArrayQueue α :=
  if q.data.length = q.capacity then
    { q with data := q.data.tail ++ [x] }
  else
    { q with data := q.data ++ [x] }

/-- Models `ArrayQueue::pop`: removes and returns the oldest element,
or `none` when the queue is empty; never blocks. -/
def ArrayQueue.pop {α : Type} (q : ArrayQueue α) : Option α × ArrayQueue α :=
  match q.data with
  | [] => (none, q)
  | x :: rest => (some x, { q with data := rest })

/-- A sequence of force-pushes, in order. -/
def pushAll {α : Type} (q : ArrayQueue α) (xs : List α) : ArrayQueue α :=
  xs.foldl ArrayQueue.force_push q

/-- Models `queue.pop().unwrap_or_default()` in `AudioStream::on_window`
(stream.rs): popping from an empty queue yields the silence default. -/
def popOrDefault (q : ArrayQueue StereoSample) : StereoSample × ArrayQueue StereoSample :=
  match q.pop with
  | (some s, q') => (s, q')
  | (none, q') => (StereoSample.default, q')

/-- Models the per-frame loop of `AudioStream::on_window` (stream.rs):
one `pop().unwrap_or_default()` per output frame slot. Returns the
samples written to the successive frame slots and the drained queue. -/
def on_window : Nat → ArrayQueue StereoSample → List StereoSample × ArrayQueue StereoSample
  | 0, q => ([], q)
  | n + 1, q =>
    let p := popOrDefault q
    let r := on_window n p.2
    (p.1 :: r.1, r.2)

theorem force_push_capacity {α : Type} (q : ArrayQueue α) (x : α) :
    (q.force_push x).capacity = q.capacity := by
  unfold ArrayQueue.force_push
  split <;> rfl

theorem pushAll_cons {α : Type} (q : ArrayQueue α) (x : α) (t : List α) :
    pushAll q (x :: t) = pushAll (q.force_push x) t := rfl

theorem force_push_data_full {α : Type} (q : ArrayQueue α) (x : α)
    (h : q.data.length = q.capacity) :
    (q.force_push x).data = q.data.tail ++ [x] := by
  unfold ArrayQueue.force_push
  simp [h]

theorem force_push_data_not_full {α : Type} (q : ArrayQueue α) (x : α)
    (h : q.data.length ≠ q.capacity) :
    (q.force_push x).data = q.data ++ [x] := by
  unfold ArrayQueue.force_push
  simp [h]

/-- Contents after a run of force-pushes: the queue retains the most
recent `capacity` elements of the old contents followed by the pushed
elements, in order. -/
theorem pushAll_data {α : Type} (xs : List α) :
    ∀ q : ArrayQueue α, 0 < q.capacity → q.data.length ≤ q.capacity →
      (pushAll q xs).data =
        (q.data ++ xs).drop (q.data.length + xs.length - q.capacity) := by
  induction xs with
  | nil =>
    intro q _ hlen
    have h0 : q.data.length - q.capacity = 0 := by omega
    simp [pushAll, h0]
  | cons x t ih =>
    intro q hC hlen
    rw [pushAll_cons]
    by_cases hfull : q.data.length = q.capacity
    · -- the queue is full: the oldest element is evicted
      obtain ⟨a, tl, hdata⟩ : ∃ a tl, q.data = a :: tl := by
        cases hd : q.data with
        | nil =>
          exfalso
          rw [hd] at hfull
          simp at hfull
          omega
        | cons a tl => exact ⟨a, tl, rfl⟩
      have hq'd : (q.force_push x).data = tl ++ [x] := by
        rw [force_push_data_full q x hfull, hdata]
        rfl
      have hq'c : (q.force_push x).capacity = q.capacity := force_push_capacity q x
      have hlen' : (q.force_push x).data.length ≤ (q.force_push x).capacity := by
        rw [hq'd, hq'c]
        simp
        rw [hdata] at hfull
        simp at hfull
        omega
      have hres := ih (q.force_push x) (by rw [hq'c]; exact hC) hlen'
      rw [hres, hq'd, hq'c]
      have htl : tl.length + 1 = q.capacity := by
        rw [hdata] at hfull
        simpa using hfull
      have hidx1 : (tl ++ [x]).length + t.length - q.capacity = t.length := by
        simp
        omega
      have hidx2 : q.data.length + (x :: t).length - q.capacity = t.length + 1 := by
        rw [hdata]
        simp
        omega
      rw [hidx1, hidx2, hdata]
      have hassoc : (tl ++ [x]) ++ t = tl ++ x :: t := by
        simp
      rw [hassoc]
      rfl
    · -- not full: the element is appended
      have hq'd : (q.force_push x).data = q.data ++ [x] :=
        force_push_data_not_full q x hfull
      have hq'c : (q.force_push x).capacity = q.capacity := force_push_capacity q x
      have hlen' : (q.force_push x).data.length ≤ (q.force_push x).capacity := by
        rw [hq'd, hq'c]
        simp
        omega
      have hres := ih (q.force_push x) (by rw [hq'c]; exact hC) hlen'
      rw [hres, hq'd, hq'c]
      have hassoc : (q.data ++ [x]) ++ t = q.data ++ x :: t := by
        simp
      have hidx : (q.data ++ [x]).length + t.length - q.capacity
          = q.data.length + (x :: t).length - q.capacity := by
        simp
        omega
      rw [hassoc, hidx]

/-- C1: for every capacity C > 0 and every list of at least C pushed
values, after force-pushing them all into a fresh queue the length is
exactly C and the contents are the last C pushed values in FIFO order. -/
theorem claim_C1 {α : Type} (C : Nat) (xs : List α) (hC : 0 < C) (hN : C ≤ xs.length) :
    (pushAll (ArrayQueue.new C) xs).data.length = C ∧
    (pushAll (ArrayQueue.new C) xs).data = xs.drop (xs.length - C) := by
  have hbase := pushAll_data xs (ArrayQueue.new (α := α) C)
    (by simpa [ArrayQueue.new] using hC) (by simp [ArrayQueue.new])
  have hd : (pushAll (ArrayQueue.new (α := α) C) xs).data = xs.drop (xs.length - C) := by
    rw [hbase]
    simp [ArrayQueue.new]
  refine ⟨?_, hd⟩
  rw [hd]
  simp
  omega

/-- Witness for C1 at capacity 2 and three pushes. -/
theorem claim_C1_witness :
    (pushAll (ArrayQueue.new 2) ([5, 6, 7] : List Nat)).data = [5, 6, 7].drop 1 :=
  (claim_C1 2 [5, 6, 7] (by decide) (by decide)).2

/-- Samples written by the callback loop: the available queue elements
in FIFO order, then silence for every remaining frame slot. -/
theorem on_window_samples (n : Nat) :
    ∀ q : ArrayQueue StereoSample,
      (on_window n q).1 =
        q.data.take n ++ List.replicate (n - q.data.length) StereoSample.default := by
  induction n with
  | zero =>
    intro q
    simp [on_window]
  | succ m ih =>
    intro q
    cases hd : q.data with
    | nil =>
      have hpop : popOrDefault q = (StereoSample.default, q) := by
        simp [popOrDefault, ArrayQueue.pop, hd]
      simp [on_window, hpop, ih q, hd, List.replicate_succ]
    | cons a rest =>
      have hpop : popOrDefault q = (a, { q with data := rest }) := by
        simp [popOrDefault, ArrayQueue.pop, hd]
      simp [on_window, hpop, ih { q with data := rest }, hd]

/-- C2: popping from an empty queue never blocks and yields the silence
default, and the callback loop writes silence into every frame slot for
which the queue had no element. -/
theorem claim_C2 :
    (∀ q : ArrayQueue StereoSample, q.data = [] →
      popOrDefault q = (StereoSample.default, q)) ∧
    (∀ (n : Nat) (q : ArrayQueue StereoSample),
      (on_window n q).1 =
        q.data.take n ++ List.replicate (n - q.data.length) StereoSample.default) := by
  constructor
  · intro q hq
    simp [popOrDefault, ArrayQueue.pop, hq]
  · intro n q
    exact on_window_samples n q

/-- Witness for C2 on a fresh empty queue of capacity 3. -/
theorem claim_C2_witness :
    popOrDefault (ArrayQueue.new 3) = (StereoSample.default, ArrayQueue.new 3) :=
  claim_C2.1 (ArrayQueue.new 3) rfl

/-- Abstract stand-ins for the transcendental `f32` operations used by
the synthesizers: `fsin` models `f32::sin` and `fpi` models
`std::f32::consts::PI`. No checked property depends on their values. -/
structure FloatOracle where
  fsin : ℚ → ℚ
  fpi : ℚ

/-- A concrete oracle used by witnesses. -/
def oracle0 : FloatOracle := { fsin := fun _ => 0, fpi := 0 }

/-- Models `Synthesizer` of synthesizer.rs: the 8-voice variant with a
`fake_delay` (microseconds slept once per `generate_audio` call). -/
structure Synthesizer where
  sample_rate : Nat
  sample_clock : Nat
  frequency : ℚ
  is_playing : Bool
  fake_delay : Nat
deriving DecidableEq, Repr

/-- Models `Synthesizer::new_with` (synthesizer.rs): playing by
default, frequency 440 Hz, sample clock 0, fake delay 1 microsecond. -/
def Synthesizer.new_with (sample_rate : Nat) : Synthesizer :=
  { sample_rate := sample_rate
    sample_clock := 0
    frequency := 440.0
    is_playing := true
    fake_delay := 1 }

/-- Models `Synthesizer::play`. -/
def Synthesizer.play (s : Synthesizer) : Synthesizer := { s with is_playing := true }

/-- Models `Synthesizer::pause`. -/
def Synthesizer.pause (s : Synthesizer) : Synthesizer := { s with is_playing := false }

/-- Models `Synthesizer::change_frequency`: multiply by 1.01, touch
nothing else. -/
def Synthesizer.change_frequency (s : Synthesizer) : Synthesizer :=
  { s with frequency := s.frequency * 1.01 }

/-- Models `Synthesizer::make_sound`:
`sin(sample_clock * freq * 2 * PI / sample_rate)`. -/
def Synthesizer.make_sound (s : Synthesizer) (o : FloatOracle) (freq : ℚ) : ℚ :=
  o.fsin ((s.sample_clock : ℚ) * freq * 2 * o.fpi / (s.sample_rate : ℚ))

/-- Models `Synthesizer::tick`: advance the sample clock by one. -/
def Synthesizer.tick (s : Synthesizer) : Synthesizer :=
  { s with sample_clock := s.sample_clock + 1 }

/-- One frame of the 8-voice loop body of `Synthesizer::generate_audio`
(synthesizer.rs): sum eight detuned voices (each voice is silent when
not playing) and divide by the voice count, duplicated to both
channels. -/
def Synthesizer.mkFrame (s : Synthesizer) (o : FloatOracle) : StereoSample :=
  let voice_count : Nat := 8
  let sum := (List.range voice_count).foldl
    (fun acc i =>
      acc + (if s.is_playing then
        s.make_sound o (s.frequency * (1 + (i : ℚ) * (1 / 1000)))
      else 0))
    0
  let sample := sum / (voice_count : ℚ)
  { left := sample, right := sample }

/-- The `for _ in 0..count` loop of `Synthesizer::generate_audio`
(synthesizer.rs): per iteration, force-push one frame when playing,
then tick; the clock ticks regardless of play state. -/
def Synthesizer.generateLoop (o : FloatOracle) :
    Nat → Synthesizer → ArrayQueue StereoSample → Synthesizer × ArrayQueue StereoSample
  | 0, s, q => (s, q)
  | n + 1, s, q =>
    let q' := if s.is_playing then q.force_push (s.mkFrame o) else q
    Synthesizer.generateLoop o n s.tick q'

/-- Models `Synthesizer::generate_audio` (synthesizer.rs): sleep
`fake_delay` microseconds once, then run the generation loop. The
third component records the microseconds slept. -/
def Synthesizer.generate_audio (s : Synthesizer) (o : FloatOracle) (count : Nat)
    (q : ArrayQueue StereoSample) : Synthesizer × ArrayQueue StereoSample × Nat :=
  let sleptMicros := s.fake_delay
  let r := Synthesizer.generateLoop o count s q
  (r.1, r.2, sleptMicros)

/-- The frames that a playing synthesizer produces over `n` iterations,
oldest first. -/
def Synthesizer.genSamples (o : FloatOracle) : Nat → Synthesizer → List StereoSample
  | 0, _ => []
  | n + 1, s => s.mkFrame o :: Synthesizer.genSamples o n s.tick

theorem tick_is_playing (s : Synthesizer) : s.tick.is_playing = s.is_playing := rfl

theorem generateLoop_clock (o : FloatOracle) (n : Nat) :
    ∀ (s : Synthesizer) (q : ArrayQueue StereoSample),
      (Synthesizer.generateLoop o n s q).1.sample_clock = s.sample_clock + n := by
  induction n with
  | zero =>
    intro s q
    simp [Synthesizer.generateLoop]
  | succ m ih =>
    intro s q
    show (Synthesizer.generateLoop o m s.tick
      (if s.is_playing then q.force_push (s.mkFrame o) else q)).1.sample_clock
        = s.sample_clock + (m + 1)
    rw [ih]
    simp [Synthesizer.tick]
    omega

theorem generateLoop_paused (o : FloatOracle) (n : Nat) :
    ∀ (s : Synthesizer) (q : ArrayQueue StereoSample), s.is_playing = false →
      (Synthesizer.generateLoop o n s q).2 = q := by
  induction n with
  | zero =>
    intro s q _
    simp [Synthesizer.generateLoop]
  | succ m ih =>
    intro s q hp
    show (Synthesizer.generateLoop o m s.tick
      (if s.is_playing then q.force_push (s.mkFrame o) else q)).2 = q
    rw [hp]
    simpa using ih s.tick q (by rw [tick_is_playing, hp])

theorem generateLoop_playing (o : FloatOracle) (n : Nat) :
    ∀ (s : Synthesizer) (q : ArrayQueue StereoSample), s.is_playing = true →
      (Synthesizer.generateLoop o n s q).2 = pushAll q (Synthesizer.genSamples o n s) := by
  induction n with
  | zero =>
    intro s q _
    simp [Synthesizer.generateLoop, Synthesizer.genSamples, pushAll]
  | succ m ih =>
    intro s q hp
    show (Synthesizer.generateLoop o m s.tick
      (if s.is_playing then q.force_push (s.mkFrame o) else q)).2
        = pushAll q (Synthesizer.genSamples o (m + 1) s)
    rw [hp]
    simp only [if_pos]
    rw [ih s.tick (q.force_push (s.mkFrame o)) (by rw [tick_is_playing, hp])]
    rfl

theorem genSamples_length (o : FloatOracle) (n : Nat) :
    ∀ s : Synthesizer, (Synthesizer.genSamples o n s).length = n := by
  induction n with
  | zero =>
    intro s
    rfl
  | succ m ih =>
    intro s
    show (s.mkFrame o :: Synthesizer.genSamples o m s.tick).length = m + 1
    simp [ih]

namespace Generator

/-- Models the private `Synthesizer` of generator.rs: single voice, no
fake delay. -/
structure Synthesizer where
  sample_rate : Nat
  sample_clock : Nat
  frequency : ℚ
  is_playing : Bool
deriving DecidableEq, Repr

/-- Models `Synthesizer::new_with` (generator.rs). -/
def Synthesizer.new_with (sample_rate : Nat) : Synthesizer :=
  { sample_rate := sample_rate
    sample_clock := 0
    frequency := 440.0
    is_playing := true }

/-- Models `Synthesizer::play` (generator.rs). -/
def Synthesizer.play (s : Synthesizer) : Synthesizer := { s with is_playing := true }

/-- Models `Synthesizer::pause` (generator.rs). -/
def Synthesizer.pause (s : Synthesizer) : Synthesizer := { s with is_playing := false }

/-- Models `Synthesizer::change_frequency` (generator.rs): multiply by
1.01. -/
def Synthesizer.change_frequency (s : Synthesizer) : Synthesizer :=
  { s with frequency := s.frequency * 1.01 }

/-- Models `Synthesizer::make_sound` (generator.rs). -/
def Synthesizer.make_sound (s : Synthesizer) (o : FloatOracle) (freq : ℚ) : ℚ :=
  o.fsin ((s.sample_clock : ℚ) * freq * 2 * o.fpi / (s.sample_rate : ℚ))

/-- Models `Synthesizer::tick` (generator.rs). -/
def Synthesizer.tick (s : Synthesizer) : Synthesizer :=
  { s with sample_clock := s.sample_clock + 1 }

/-- Models `Synthesizer::generate_audio` (generator.rs): per iteration
compute one sample (0 when paused), force-push it to both channels only
when playing, then tick. -/
def Synthesizer.generate_audio (o : FloatOracle) :
    Nat → Synthesizer → ArrayQueue StereoSample → Synthesizer × ArrayQueue StereoSample
  | 0, s, q => (s, q)
  | n + 1, s, q =>
    let sample := if s.is_playing then s.make_sound o s.frequency else 0
    let q' := if s.is_playing then
      q.force_push { left := sample, right := sample } else q
    Synthesizer.generate_audio o n s.tick q'

theorem gen_tick_is_playing (s : Synthesizer) : s.tick.is_playing = s.is_playing := rfl

theorem generate_audio_clock (o : FloatOracle) (n : Nat) :
    ∀ (s : Synthesizer) (q : ArrayQueue StereoSample),
      (Synthesizer.generate_audio o n s q).1.sample_clock = s.sample_clock + n := by
  induction n with
  | zero =>
    intro s q
    simp [Synthesizer.generate_audio]
  | succ m ih =>
    intro s q
    show (Synthesizer.generate_audio o m s.tick
      (if s.is_playing then
        q.force_push
          { left := if s.is_playing then s.make_sound o s.frequency else 0
            right := if s.is_playing then s.make_sound o s.frequency else 0 }
      else q)).1.sample_clock = s.sample_clock + (m + 1)
    rw [ih]
    simp [Synthesizer.tick]
    omega

theorem generate_audio_paused (o : FloatOracle) (n : Nat) :
    ∀ (s : Synthesizer) (q : ArrayQueue StereoSample), s.is_playing = false →
      (Synthesizer.generate_audio o n s q).2 = q := by
  induction n with
  | zero =>
    intro s q _
    simp [Synthesizer.generate_audio]
  | succ m ih =>
    intro s q hp
    show (Synthesizer.generate_audio o m s.tick
      (if s.is_playing then
        q.force_push
          { left := if s.is_playing then s.make_sound o s.frequency else 0
            right := if s.is_playing then s.make_sound o s.frequency else 0 }
      else q)).2 = q
    rw [hp]
    simpa using ih s.tick q (by rw [gen_tick_is_playing, hp])

end Generator

/-- C3: after `GenerateAudio(n)` the sample clock equals its prior
value plus exactly n, whatever the play state, in both synthesizer
variants. -/
theorem claim_C3 (o : FloatOracle) (n : Nat) (s : Synthesizer)
    (q : ArrayQueue StereoSample) (g : Generator.Synthesizer)
    (q2 : ArrayQueue StereoSample) :
    ((s.generate_audio o n q).1.sample_clock = s.sample_clock + n) ∧
    ((Generator.Synthesizer.generate_audio o n g q2).1.sample_clock
      = g.sample_clock + n) := by
  constructor
  · show (Synthesizer.generateLoop o n s q).1.sample_clock = s.sample_clock + n
    exact generateLoop_clock o n s q
  · exact Generator.generate_audio_clock o n g q2

/-- C4: with `is_playing == false`, `GenerateAudio(n)` leaves the queue
untouched (length and contents) while the sample clock still advances
by n, in both synthesizer variants. -/
theorem claim_C4 (o : FloatOracle) (n : Nat) (s : Synthesizer)
    (q : ArrayQueue StereoSample) (g : Generator.Synthesizer)
    (q2 : ArrayQueue StereoSample)
    (hs : s.is_playing = false) (hg : g.is_playing = false) :
    ((s.generate_audio o n q).2.1 = q) ∧
    ((s.generate_audio o n q).1.sample_clock = s.sample_clock + n) ∧
    ((Generator.Synthesizer.generate_audio o n g q2).2 = q2) ∧
    ((Generator.Synthesizer.generate_audio o n g q2).1.sample_clock
      = g.sample_clock + n) := by
  refine ⟨?_, generateLoop_clock o n s q, Generator.generate_audio_paused o n g q2 hg,
    Generator.generate_audio_clock o n g q2⟩
  show (Synthesizer.generateLoop o n s q).2 = q
  exact generateLoop_paused o n s q hs

/-- Witness for C4: a freshly paused synthesizer generating 2 frames
into an empty capacity-4 queue. -/
theorem claim_C4_witness :
    (((Synthesizer.new_with 44100).pause.generate_audio oracle0 2
        (ArrayQueue.new 4)).2.1 = ArrayQueue.new 4) ∧
    (((Synthesizer.new_with 44100).pause.generate_audio oracle0 2
        (ArrayQueue.new 4)).1.sample_clock
      = (Synthesizer.new_with 44100).pause.sample_clock + 2) ∧
    ((Generator.Synthesizer.generate_audio oracle0 2
        (Generator.Synthesizer.new_with 44100).pause (ArrayQueue.new 4)).2
      = ArrayQueue.new 4) ∧
    ((Generator.Synthesizer.generate_audio oracle0 2
        (Generator.Synthesizer.new_with 44100).pause (ArrayQueue.new 4)).1.sample_clock
      = (Generator.Synthesizer.new_with 44100).pause.sample_clock + 2) :=
  claim_C4 oracle0 2 (Synthesizer.new_with 44100).pause (ArrayQueue.new 4)
    (Generator.Synthesizer.new_with 44100).pause (ArrayQueue.new 4) rfl rfl

/-- Models the backpressure branch of the `AudioGenerator` event loop
(generator.rs): on a pulse, compute `shortfall = capacity - len`; when
`shortfall >= 64` run `generate_audio(shortfall)`, otherwise do
nothing. -/
def backpressurePulse (o : FloatOracle) (g : Generator.Synthesizer)
    (q : ArrayQueue StereoSample) : Generator.Synthesizer × ArrayQueue StereoSample :=
  let shortfall := q.capacity - q.data.length
  if 64 ≤ shortfall then
    Generator.Synthesizer.generate_audio o shortfall g q
  else
    (g, q)

/-- C5: a backpressure pulse with shortfall below 64 synthesizes
nothing; with shortfall at least 64 it runs `generate_audio` for
exactly `shortfall` frames, so the sample clock advances by exactly the
shortfall; in particular a shortfall of 100 yields exactly 100 frames. -/
theorem claim_C5 (o : FloatOracle) (g : Generator.Synthesizer)
    (q : ArrayQueue StereoSample) :
    (q.capacity - q.data.length < 64 → backpressurePulse o g q = (g, q)) ∧
    (64 ≤ q.capacity - q.data.length →
      backpressurePulse o g q
        = Generator.Synthesizer.generate_audio o (q.capacity - q.data.length) g q ∧
      (backpressurePulse o g q).1.sample_clock
        = g.sample_clock + (q.capacity - q.data.length)) ∧
    (q.capacity - q.data.length = 100 →
      (backpressurePulse o g q).1.sample_clock = g.sample_clock + 100) := by
  refine ⟨?_, ?_, ?_⟩
  · intro h
    simp [backpressurePulse]
    omega
  · intro h
    have hrun : backpressurePulse o g q
        = Generator.Synthesizer.generate_audio o (q.capacity - q.data.length) g q := by
      simp [backpressurePulse, h]
    refine ⟨hrun, ?_⟩
    rw [hrun]
    exact Generator.generate_audio_clock o (q.capacity - q.data.length) g q
  · intro h
    have h64 : 64 ≤ q.capacity - q.data.length := by omega
    have hrun : backpressurePulse o g q
        = Generator.Synthesizer.generate_audio o (q.capacity - q.data.length) g q := by
      simp [backpressurePulse, h64]
    rw [hrun, Generator.generate_audio_clock o (q.capacity - q.data.length) g q, h]

/-- Witness for C5: a capacity-128 queue holding 28 samples has a
shortfall of 100 and the pulse synthesizes exactly 100 frames. -/
theorem claim_C5_witness :
    (backpressurePulse oracle0 (Generator.Synthesizer.new_with 44100)
      { capacity := 128, data := List.replicate 28 StereoSample.default }).1.sample_clock
      = (Generator.Synthesizer.new_with 44100).sample_clock + 100 :=
  (claim_C5 oracle0 (Generator.Synthesizer.new_with 44100)
    { capacity := 128, data := List.replicate 28 StereoSample.default }).2.2 (by simp)

/-- Repeated `ChangeFrequency` calls, applied left to right. -/
def changeFrequencyIter : Nat → Synthesizer → Synthesizer
  | 0, s => s
  | k + 1, s => changeFrequencyIter k s.change_frequency

theorem changeFrequencyIter_frequency (k : Nat) :
    ∀ s : Synthesizer, (changeFrequencyIter k s).frequency = s.frequency * 1.01 ^ k := by
  induction k with
  | zero =>
    intro s
    simp [changeFrequencyIter]
  | succ m ih =>
    intro s
    show (changeFrequencyIter m s.change_frequency).frequency = s.frequency * 1.01 ^ (m + 1)
    rw [ih s.change_frequency]
    show s.frequency * 1.01 * 1.01 ^ m = s.frequency * 1.01 ^ (m + 1)
    ring

/-- C6: `ChangeFrequency` multiplies the frequency by exactly 1.01 and
changes no other field (so no clamp or bound is applied); from the
initial 440 Hz one call yields 444.4 and k calls yield 440 * 1.01 ^ k;
the generator.rs variant behaves identically. -/
theorem claim_C6 :
    (∀ s : Synthesizer, s.change_frequency = { s with frequency := s.frequency * 1.01 }) ∧
    (∀ g : Generator.Synthesizer,
      g.change_frequency = { g with frequency := g.frequency * 1.01 }) ∧
    ((Synthesizer.new_with 44100).change_frequency.frequency = 444.4) ∧
    (∀ (k sr : Nat),
      (changeFrequencyIter k (Synthesizer.new_with sr)).frequency = 440.0 * 1.01 ^ k) := by
  refine ⟨fun s => rfl, fun g => rfl, ?_, ?_⟩
  · show (440.0 : ℚ) * 1.01 = 444.4
    norm_num
  · intro k sr
    rw [changeFrequencyIter_frequency k (Synthesizer.new_with sr)]
    rfl

/-- C10: a fresh synthesizer is playing by default with frequency 440,
sample clock 0 and (in the synthesizer.rs variant) a fake delay of 1
microsecond, so before any Play command a `GenerateAudio(n)` call
already pushes n frames into an empty queue of sufficient capacity and
sleeps 1 microsecond. -/
theorem claim_C10 (sr : Nat) (o : FloatOracle) (n : Nat) (q : ArrayQueue StereoSample)
    (hq : q.data = []) (hcap : 0 < q.capacity) (hn : n ≤ q.capacity) :
    ((Synthesizer.new_with sr).is_playing = true) ∧
    ((Synthesizer.new_with sr).frequency = 440.0) ∧
    ((Synthesizer.new_with sr).sample_clock = 0) ∧
    ((Synthesizer.new_with sr).fake_delay = 1) ∧
    ((Generator.Synthesizer.new_with sr).is_playing = true) ∧
    (((Synthesizer.new_with sr).generate_audio o n q).2.1.data.length = n) ∧
    (((Synthesizer.new_with sr).generate_audio o n q).2.2 = 1) := by
  refine ⟨rfl, rfl, rfl, rfl, rfl, ?_, rfl⟩
  show (Synthesizer.generateLoop o n (Synthesizer.new_with sr) q).2.data.length = n
  rw [generateLoop_playing o n (Synthesizer.new_with sr) q rfl]
  rw [pushAll_data (Synthesizer.genSamples o n (Synthesizer.new_with sr)) q hcap
    (by rw [hq]; simp)]
  rw [hq]
  simp [genSamples_length]
  omega

/-- Witness for C10: a fresh 44100 Hz synthesizer generating 3 frames
into an empty capacity-8 queue. -/
theorem claim_C10_witness :
    (((Synthesizer.new_with 44100).generate_audio oracle0 3
        (ArrayQueue.new 8)).2.1.data.length = 3) ∧
    (((Synthesizer.new_with 44100).generate_audio oracle0 3 (ArrayQueue.new 8)).2.2 = 1) :=
  ⟨(claim_C10 44100 oracle0 3 (ArrayQueue.new 8) rfl (by decide) (by decide)).2.2.2.2.2.1,
   (claim_C10 44100 oracle0 3 (ArrayQueue.new 8) rfl (by decide) (by decide)).2.2.2.2.2.2⟩

/-- Channel indices written into one frame slice by
`AudioStream::on_window` (stream.rs lines 209-212), as the code is
written: `frame[0]` always, and `frame[1]` whenever
`channel_count > 0`. -/
def frameWriteIndices (channel_count : Nat) : List Nat :=
  0 :: (if 0 < channel_count then [1] else [])

/-- A frame produced by `chunks_exact_mut(channel_count)` has exactly
`channel_count` slots, so the write is in bounds exactly when every
written index is below `channel_count`. -/
def on_window_writes_in_bounds (channel_count : Nat) : Bool :=
  (frameWriteIndices channel_count).all (fun i => decide (i < channel_count))

/-- C7: evaluation at the failing input. For a stereo device the frame
writes stay in bounds, but for a mono device (`channel_count == 1`) the
code writes `frame[1]` into a one-slot frame — the guard reads
`channel_count > 0` where the intended behaviour (mono devices receive
only the left value) needs `channel_count > 1`, so the callback indexes
out of bounds and panics. -/
theorem claim_C7_eval :
    on_window_writes_in_bounds 2 = true ∧ on_window_writes_in_bounds 1 = false := by
  decide

/-- Models `AudioInterfaceInput` of subscription.rs. -/
inductive AudioInterfaceInput where
  | SetBufferSize (n : Nat)
  | Play
  | Pause
  | Quit
deriving DecidableEq, Repr

/-- Models `AudioInterfaceEvent` of subscription.rs, with the channel
and queue handles abstracted away. -/
inductive AudioInterfaceEvent where
  | Ready
  | Reset (sample_rate : Nat)
  | NeedsAudio (count : Nat)
  | Quit
deriving DecidableEq, Repr

/-- A `todo!()` branch: reaching it aborts the thread. -/
inductive Fatal where
  | todo
deriving DecidableEq, Repr

/-- The stream operation the audio thread performs for one input. -/
inductive StreamAction where
  | play
  | pause
  | quitAndBreak
deriving DecidableEq, Repr

/-- Models the control-loop dispatch of the audio-stream thread in
`AudioInterfaceSubscription::subscription` (subscription.rs): one
received input either drives the stream or hits the `todo!()` branch. -/
def audioThreadDispatch : AudioInterfaceInput → Except Fatal StreamAction
  | .SetBufferSize _ => .error .todo
  | .Play => .ok .play
  | .Pause => .ok .pause
  | .Quit => .ok .quitAndBreak

/-- Models `SampleFormat` of cpal as matched in stream.rs. -/
inductive SampleFormat where
  | I8
  | I16
  | I32
  | I64
  | U8
  | U16
  | U32
  | U64
  | F32
  | F64
deriving DecidableEq, Repr

/-- Models `AudioStream::stream_setup_for` (stream.rs): only the
32-bit-float format builds a stream; every other negotiated format
hits a `todo!()` branch with no conversion fallback. -/
def stream_setup_for (fmt : SampleFormat) : Except Fatal Unit :=
  match fmt with
  | .F32 => .ok ()
  | _ => .error .todo

/-- C9: `SetBufferSize(n)` reaches the fatal `todo!()` branch for every
n, never a silent no-op, and negotiating any sample format other than
32-bit float likewise reaches a fatal `todo!()` branch, while `F32`
builds the stream. -/
theorem claim_C9 :
    (∀ n : Nat, audioThreadDispatch (.SetBufferSize n) = .error .todo) ∧
    (∀ fmt : SampleFormat, fmt ≠ .F32 → stream_setup_for fmt = .error .todo) ∧
    (stream_setup_for .F32 = .ok ()) := by
  refine ⟨fun n => rfl, ?_, rfl⟩
  intro fmt h
  cases fmt <;> first | rfl | exact absurd rfl h

/-- Witness for C9 at a non-float format. -/
theorem claim_C9_witness : stream_setup_for .I16 = .error .todo :=
  claim_C9.2.1 .I16 (by decide)

/-- Models the state of the `iced` subscription state machine of
subscription.rs, with the thread handle and channel endpoints
abstracted away. -/
inductive BridgeState where
  | Start
  | Ready
  | Ending
  | Idle
deriving DecidableEq, Repr

/-- Outcome of one completed step of the subscription's unfold: the
event emitted to the controller, whether the step joined the worker
thread, and the successor state. -/
structure BridgeStep where
  emitted : Option AudioInterfaceEvent
  joinsWorker : Bool
  next : BridgeState
deriving DecidableEq, Repr

/-- Models one completed step of
`AudioInterfaceSubscription::subscription` (subscription.rs). The
argument is the worker event the step dequeues, if any (app inputs are
forwarded inside the Ready loop without completing a step). `none` as
a result means the step never completes: Ready blocks on its select
with no worker event, and Idle suspends forever on
`future::pending()`. -/
def bridgeStep : BridgeState → Option AudioInterfaceEvent → Option BridgeStep
  | .Start, _ => some { emitted := some .Ready, joinsWorker := false, next := .Ready }
  | .Ready, some ev =>
    match ev with
    | .Quit => some { emitted := some .Quit, joinsWorker := false, next := .Ending }
    | e => some { emitted := some e, joinsWorker := false, next := .Ready }
  | .Ready, none => none
  | .Ending, _ => some { emitted := none, joinsWorker := true, next := .Idle }
  | .Idle, _ => none

/-- C8: a worker Quit event in Ready moves the bridge to Ending
(relaying the Quit); the Ending step joins the worker thread and
reaches Idle emitting no event; no step from Idle ever completes, so
Idle produces no further event; and the only transition into Idle is
the one from Ending, so Idle is reachable only once. -/
theorem claim_C8 :
    (bridgeStep .Ready (some .Quit)
      = some { emitted := some .Quit, joinsWorker := false, next := .Ending }) ∧
    (∀ e : Option AudioInterfaceEvent,
      bridgeStep .Ending e
        = some { emitted := none, joinsWorker := true, next := .Idle }) ∧
    (∀ e : Option AudioInterfaceEvent, bridgeStep .Idle e = none) ∧
    (∀ (s : BridgeState) (e : Option AudioInterfaceEvent) (r : BridgeStep),
      bridgeStep s e = some r → r.next = .Idle → s = .Ending) := by
  refine ⟨rfl, fun e => rfl, fun e => rfl, ?_⟩
  intro s e r hstep hnext
  cases s with
  | Start =>
    simp [bridgeStep] at hstep
    rw [← hstep] at hnext
    exact absurd hnext (by decide)
  | Ready =>
    cases e with
    | none => exact absurd hstep (by simp [bridgeStep])
    | some ev =>
      cases ev <;>
        (injection hstep with h
         rw [← h] at hnext
         simp at hnext)
  | Ending => rfl
  | Idle => exact absurd hstep (by simp [bridgeStep])

/-- Witness for C8: the concrete Ending step with no pending event. -/
theorem claim_C8_witness : BridgeState.Ending = BridgeState.Ending :=
  claim_C8.2.2.2 .Ending none
    { emitted := none, joinsWorker := true, next := .Idle } rfl rfl
